import Mathlib

/-
Verification development for the app-store backend (src/api_server.py).

The backend keeps two JSON documents on disk: an apps collection (a JSON
array of objects) and a users collection (a JSON object keyed by email or
id).  Each request handler loads a document, mutates an in-memory copy and
rewrites the whole file.  We embed the JSON data model and the handler
bodies as pure Lean functions; boundary concerns (Flask routing, request
parsing, CORS) stay outside the embedding and appear as function
parameters (the extracted email, patch, timestamp, ...).
-/

namespace AppStore

/-
JSON-like values as stored in the two documents.  Arrays are given by the
mutually defined type `JArr` so that decidable equality can be derived.
JSON objects nested inside values do not occur in any property we verify;
records themselves are modelled as insertion-ordered association lists
(see `Rec`).
-/
mutual
inductive JVal where
  | null : JVal
  | bool : Bool → JVal
  | num : Int → JVal
  | str : String → JVal
  | arr : JArr → JVal
inductive JArr where
  | nil : JArr
  | cons : JVal → JArr → JArr
end

deriving instance DecidableEq for JVal
deriving instance DecidableEq for JArr

/-- Python truthiness of a JSON value: None, False, 0, the empty string
and the empty array are falsy; everything else is truthy. -/
def truthy : JVal → Bool
  | JVal.null => false
  | JVal.bool b => b
  | JVal.num n => n != 0
  | JVal.str s => s != ""
  | JVal.arr JArr.nil => false
  | JVal.arr (JArr.cons _ _) => true

/-- A record (a Python dict): an insertion-ordered association list from
string keys to values.  Keys of dicts produced by the json module are
unique; where a proof needs that invariant it is an explicit
hypothesis. -/
abbrev Rec := List (String × JVal)

/-- The users document: a JSON object mapping an email (or id) to a user
record. -/
abbrev Users := List (String × Rec)

/-- Dict lookup, as in Python `m.get(k)`: the value at the first matching
key, or `none`. -/
def dget {α : Type} (m : List (String × α)) (k : String) : Option α :=
  match m with
  | [] => none
  | p :: t => if p.1 = k then some p.2 else dget t k

/-- Dict membership, as in Python `k in m`. -/
def dhasKey {α : Type} (m : List (String × α)) (k : String) : Bool :=
  match m with
  | [] => false
  | p :: t => if p.1 = k then true else dhasKey t k

/-- Dict update `m[k] = v`: replace the value at an existing key in place
(keeping its position, as Python dicts do), otherwise append the new
binding at the end. -/
def dset {α : Type} (m : List (String × α)) (k : String) (v : α) : List (String × α) :=
  if dhasKey m k then m.map (fun p => if p.1 = k then (k, v) else p)
  else m ++ [(k, v)]

/-- Shallow merge of dicts, Python `\x7b**old, **patch\x7d`: keys of `patch`
overwrite same-named keys of `old`; untouched keys persist. -/
def dmerge (old patch : Rec) : Rec :=
  patch.foldl (fun acc p => dset acc p.1 p.2) old

theorem dmerge_cons (old : Rec) (p : String × JVal) (t : Rec) :
    dmerge old (p :: t) = dmerge (dset old p.1 p.2) t := rfl

theorem dget_map_replace {α : Type} (m : List (String × α)) (k : String) (v : α) :
    dget (m.map (fun p => if p.1 = k then (k, v) else p)) k =
      if dhasKey m k then some v else none := by
  induction m with
  | nil => simp [dget, dhasKey]
  | cons p t ih =>
    by_cases h : p.1 = k
    · simp [dget, dhasKey, h]
    · simp [dget, dhasKey, h, ih]

theorem dget_append_single_self {α : Type} (m : List (String × α)) (k : String) (v : α)
    (h : dhasKey m k = false) : dget (m ++ [(k, v)]) k = some v := by
  induction m with
  | nil => simp [dget]
  | cons p t ih =>
    by_cases hp : p.1 = k
    · simp [dhasKey, hp] at h
    · have ht : dhasKey t k = false := by simpa [dhasKey, hp] using h
      simpa [dget, hp] using ih ht

theorem dget_dset_self {α : Type} (m : List (String × α)) (k : String) (v : α) :
    dget (dset m k v) k = some v := by
  unfold dset
  by_cases h : dhasKey m k
  · simp [h, dget_map_replace]
  · have h' : dhasKey m k = false := by simpa using h
    simp [h', dget_append_single_self m k v h']

theorem dget_map_replace_ne {α : Type} (m : List (String × α)) (k k' : String) (v : α)
    (h : k' ≠ k) :
    dget (m.map (fun p => if p.1 = k then (k, v) else p)) k' = dget m k' := by
  induction m with
  | nil => rfl
  | cons p t ih =>
    by_cases hp : p.1 = k
    · simp [dget, hp, Ne.symm h, ih]
    · simp [dget, hp, ih]

theorem dget_append_single_ne {α : Type} (m : List (String × α)) (k k' : String) (v : α)
    (h : k' ≠ k) : dget (m ++ [(k, v)]) k' = dget m k' := by
  induction m with
  | nil => simp [dget, Ne.symm h]
  | cons p t ih => by_cases hp : p.1 = k' <;> simp [dget, hp, ih]

theorem dget_dset_ne {α : Type} (m : List (String × α)) (k k' : String) (v : α)
    (h : k' ≠ k) : dget (dset m k v) k' = dget m k' := by
  unfold dset
  by_cases hk : dhasKey m k
  · simp [hk, dget_map_replace_ne m k k' v h]
  · simp [hk, dget_append_single_ne m k k' v h]

theorem dget_eq_none_iff {α : Type} (m : List (String × α)) (k : String) :
    dget m k = none ↔ dhasKey m k = false := by
  induction m with
  | nil => simp [dget, dhasKey]
  | cons p t ih => by_cases hp : p.1 = k <;> simp [dget, dhasKey, hp, ih]

theorem dhasKey_eq_true_of_dget {α : Type} (m : List (String × α)) (k : String) (v : α)
    (h : dget m k = some v) : dhasKey m k = true := by
  by_contra hc
  have hfalse : dhasKey m k = false := by simpa using hc
  rw [← dget_eq_none_iff, h] at hfalse
  cases hfalse

theorem dhasKey_eq_false_of_not_mem {α : Type} (m : List (String × α)) (k : String)
    (h : k ∉ m.map Prod.fst) : dhasKey m k = false := by
  induction m with
  | nil => rfl
  | cons p t ih =>
    simp only [List.map_cons, List.mem_cons, not_or] at h
    have hp : ¬ p.1 = k := fun he => h.1 he.symm
    simp [dhasKey, hp, ih h.2]

theorem dget_dmerge_of_not_has (old patch : Rec) (k : String)
    (h : dhasKey patch k = false) : dget (dmerge old patch) k = dget old k := by
  induction patch generalizing old with
  | nil => rfl
  | cons p t ih =>
    by_cases hp : p.1 = k
    · simp [dhasKey, hp] at h
    · have ht : dhasKey t k = false := by simpa [dhasKey, hp] using h
      rw [dmerge_cons, ih (dset old p.1 p.2) ht, dget_dset_ne]
      exact fun he => hp he.symm

theorem dget_dmerge_of_has (old patch : Rec) (k : String)
    (hnd : (patch.map Prod.fst).Nodup) (h : dhasKey patch k = true) :
    dget (dmerge old patch) k = dget patch k := by
  induction patch generalizing old with
  | nil => simp [dhasKey] at h
  | cons p t ih =>
    rw [List.map_cons, List.nodup_cons] at hnd
    by_cases hp : p.1 = k
    · have hmem : k ∉ t.map Prod.fst := hp ▸ hnd.1
      rw [dmerge_cons, dget_dmerge_of_not_has _ _ _ (dhasKey_eq_false_of_not_mem t k hmem)]
      subst hp
      simp [dget, dget_dset_self]
    · have ht : dhasKey t k = true := by simpa [dhasKey, hp] using h
      rw [dmerge_cons, ih (dset old p.1 p.2) hnd.2 ht]
      simp [dget, hp]

/-- Embedding of load_json (src/api_server.py lines 18 to 30).  `parse`
stands for the json module parser, `file` for the stored text of the
collection file (`none` when the file does not exist), `default` for the
caller-supplied default.  When the file is present but parsing fails, the
except branch prints the error and returns the default. -/
def load_json {D : Type} (parse : String → Option D) (file : Option String)
    (default : D) : D :=
  match file with
  | none => default
  | some s =>
    match parse s with
    | some doc => doc
    | none => default

/-- Embedding of save_json (src/api_server.py lines 32 to 40).  The file
is opened in write mode, which truncates the previous content before
json.dump streams the serialized text into it; the previous content is
never consulted.  `failAt` abstracts an I/O failure while writing: `none`
means the write succeeds, `some k` means it fails after k characters have
been written.  The result is the returned boolean (True on success,
False on failure; the except branch only prints) paired with the on-disk
content afterwards. -/
def save_json (serialized : String) (failAt : Option Nat) : Bool × String :=
  match failAt with
  | none => (true, serialized)
  | some k => (false, serialized.take k)

/-- Embedding of add_app (src/api_server.py lines 84 to 95): inject
created_at into the posted record and append it to the apps collection,
returning the stored record and the new collection. -/
def add_app (apps : List Rec) (new_app : Rec) (now : String) : Rec × List Rec :=
  (dset new_app "created_at" (JVal.str now),
   apps ++ [dset new_app "created_at" (JVal.str now)])

/-- Embedding of update_app (src/api_server.py lines 97 to 110): scan the
apps collection for the first record whose id field equals app_id,
shallow-merge the request patch over it and set updated_at.  The first
component is the response (`some` updated record, or `none` for the 404
branch) and the second is the collection on disk afterwards (in the 404
branch save_json is never called, so the collection is unchanged). -/
def update_app (apps : List Rec) (app_id : String) (patch : Rec) (now : String) :
    Option Rec × List Rec :=
  match apps with
  | [] => (none, [])
  | a :: rest =>
    if dget a "id" = some (JVal.str app_id) then
      (some (dset (dmerge a patch) "updated_at" (JVal.str now)),
       dset (dmerge a patch) "updated_at" (JVal.str now) :: rest)
    else
      ((update_app rest app_id patch now).1, a :: (update_app rest app_id patch now).2)

/-- Embedding of delete_app (src/api_server.py lines 112 to 121): keep
the records whose id field differs from app_id and save the result; the
handler responds success unconditionally (the boolean component). -/
def delete_app (apps : List Rec) (app_id : String) : Bool × List Rec :=
  (true, apps.filter (fun a => decide (dget a "id" ≠ some (JVal.str app_id))))

/-- Default body returned by the legacy user-data endpoint when the email
is missing or the user unknown. -/
def emptyUserData : Rec :=
  [("apps", JVal.arr JArr.nil), ("robots", JVal.arr JArr.nil)]

/-- Embedding of user_data (src/api_server.py lines 161 to 180): `email`
is the extracted email field of the request (`none` when absent; the
empty string is the other falsy case).  A falsy email answers the empty
shape; otherwise the user record is looked up with the empty shape as
default.  Every branch, including the except branch, answers with status
200, so the function is total. -/
def user_data (users : Users) (email : Option String) : Rec :=
  match email with
  | none => emptyUserData
  | some e => if e = "" then emptyUserData else (dget users e).getD emptyUserData

/-- Embedding of update_user_data (src/api_server.py lines 182 to 205):
`apps` and `robots` are the extracted request fields (data.get with a
list default, so `JVal.arr JArr.nil` when absent).  A falsy email is the
400 branch (`none`); otherwise the record stored under the email is
replaced wholesale by a record holding exactly apps and robots, and the
users document is saved. -/
def update_user_data (users : Users) (email : String) (apps robots : JVal) :
    Option Users :=
  if email = "" then none
  else some (dset users email [("apps", apps), ("robots", robots)])

/-- Outcome of the login handler as seen by the boundary layer: the 400
branch, the 401 branch, or a success payload carrying the email and the
apps and robots lists of the response. -/
inductive LoginResult where
  | badRequest : LoginResult
  | authError : LoginResult
  | ok : String → JVal → JVal → LoginResult
deriving DecidableEq

/-- Embedding of login (src/api_server.py lines 235 to 290): `email` is
the extracted email-or-username field (`none` when absent, and the empty
string is the other falsy case, both the 400 branch), `password` is
data.get of password with default empty string, `now` the current
timestamp.  For a known user whose stored password field is present and
truthy, a mismatch is the 401 branch; otherwise the handler answers with
the user's apps and robots (no save).  For an unknown email a fresh user
record is created and saved.  The second component is the users document
on disk afterwards. -/
def login (users : Users) (email : Option String) (password : JVal) (now : String) :
    LoginResult × Users :=
  match email with
  | none => (LoginResult.badRequest, users)
  | some e =>
    if e = "" then (LoginResult.badRequest, users)
    else
      match dget users e with
      | some user =>
        if dhasKey user "password" && truthy ((dget user "password").getD JVal.null) then
          if (dget user "password").getD JVal.null = password then
            (LoginResult.ok e ((dget user "apps").getD (JVal.arr JArr.nil))
               ((dget user "robots").getD (JVal.arr JArr.nil)), users)
          else (LoginResult.authError, users)
        else
          (LoginResult.ok e ((dget user "apps").getD (JVal.arr JArr.nil))
             ((dget user "robots").getD (JVal.arr JArr.nil)), users)
      | none =>
        (LoginResult.ok e (JVal.arr JArr.nil) (JVal.arr JArr.nil),
         dset users e
           [("apps", JVal.arr JArr.nil), ("robots", JVal.arr JArr.nil),
            ("password", if truthy password then password else JVal.null),
            ("created_at", JVal.str now)])

/-- Parameters of one concurrent update_app request: app_id, patch and
the timestamp the handler will use. -/
abbrev UpdateReq := String × Rec × String

/-- An atomic step of a thread running the update_app handler: the load
of the whole file on line 101 or the save of the whole file on line 106
of src/api_server.py.  The handler performs no synchronization between
the two steps. -/
inductive RaceAct where
  | load : Nat → RaceAct
  | save : Nat → RaceAct
deriving DecidableEq

/-- Interleaved execution state: the on-disk apps collection, and for
each thread the snapshot it loaded so far (if it has already loaded). -/
abbrev RaceState := List Rec × List (Option (List Rec))

/-- Effect of one atomic step.  A load takes a snapshot of the current
disk; a save runs the handler body on the thread's own snapshot and, when
the record was found, rewrites the whole file with the result (the 404
branch never calls save_json). -/
def raceStep (reqs : List UpdateReq) (s : RaceState) (act : RaceAct) : RaceState :=
  match act with
  | RaceAct.load t => (s.1, s.2.set t (some s.1))
  | RaceAct.save t =>
    match s.2.getD t none with
    | none => s
    | some snap =>
      match reqs.getD t ("", [], "") with
      | (i, p, now) =>
        match update_app snap i p now with
        | (some _, apps2) => (apps2, s.2)
        | (none, _) => s

/-- Final on-disk apps collection after an interleaved schedule of atomic
steps of concurrent update_app handlers. -/
def runRace (reqs : List UpdateReq) (disk0 : List Rec) (sched : List RaceAct) :
    List Rec :=
  (sched.foldl (raceStep reqs) (disk0, reqs.map (fun _ => none))).1

/-- Two concurrent update_app requests targeting the same record id. -/
def raceReqs : List UpdateReq :=
  [("a", [("x", JVal.str "1")], "t1"), ("a", [("y", JVal.str "2")], "t2")]

/-- Initial apps collection for the race scenario. -/
def raceDisk : List Rec := [[("id", JVal.str "a")]]

/-- Final collection when both handlers load before either saves. -/
def raceFinal : List Rec :=
  runRace raceReqs raceDisk [RaceAct.load 0, RaceAct.load 1, RaceAct.save 0, RaceAct.save 1]

/-- Final collection when the two requests run sequentially, request 0
then request 1. -/
def seqFinal01 : List Rec :=
  (update_app (update_app raceDisk "a" [("x", JVal.str "1")] "t1").2
    "a" [("y", JVal.str "2")] "t2").2

/-- Final collection when the two requests run sequentially, request 1
then request 0. -/
def seqFinal10 : List Rec :=
  (update_app (update_app raceDisk "a" [("y", JVal.str "2")] "t2").2
    "a" [("x", JVal.str "1")] "t1").2

theorem update_app_no_match (apps : List Rec) (app_id : String) (patch : Rec)
    (now : String) (h : ∀ b ∈ apps, dget b "id" ≠ some (JVal.str app_id)) :
    update_app apps app_id patch now = (none, apps) := by
  induction apps with
  | nil => rfl
  | cons a rest ih =>
    have ha : dget a "id" ≠ some (JVal.str app_id) := h a (by simp)
    have hrest := ih (fun b hb => h b (by simp [hb]))
    simp [update_app, ha, hrest]

theorem update_app_first_match (pre : List Rec) (a : Rec) (post : List Rec)
    (app_id : String) (patch : Rec) (now : String)
    (hpre : ∀ b ∈ pre, dget b "id" ≠ some (JVal.str app_id))
    (ha : dget a "id" = some (JVal.str app_id)) :
    update_app (pre ++ a :: post) app_id patch now =
      (some (dset (dmerge a patch) "updated_at" (JVal.str now)),
       pre ++ dset (dmerge a patch) "updated_at" (JVal.str now) :: post) := by
  induction pre with
  | nil => simp [update_app, ha]
  | cons b t ih =>
    have hb : dget b "id" ≠ some (JVal.str app_id) := hpre b (by simp)
    have ht := ih (fun c hc => hpre c (by simp [hc]))
    simp [update_app, hb, ht]

/-- Claim C7: update_app locates the first record whose id field matches,
shallow-merges the patch over its existing fields (patch keys overwrite
same-named fields, unspecified fields persist), sets updated_at on it and
returns the updated record; when no record matches it takes the 404
branch and the collection is unchanged. -/
theorem update_app_correct (pre : List Rec) (a : Rec) (post : List Rec)
    (app_id : String) (patch : Rec) (now : String)
    (hpre : ∀ b ∈ pre, dget b "id" ≠ some (JVal.str app_id))
    (ha : dget a "id" = some (JVal.str app_id))
    (hnd : (patch.map Prod.fst).Nodup) :
    (update_app (pre ++ a :: post) app_id patch now =
       (some (dset (dmerge a patch) "updated_at" (JVal.str now)),
        pre ++ dset (dmerge a patch) "updated_at" (JVal.str now) :: post))
  ∧ dget (dset (dmerge a patch) "updated_at" (JVal.str now)) "updated_at"
      = some (JVal.str now)
  ∧ (∀ k, k ≠ "updated_at" →
      dget (dset (dmerge a patch) "updated_at" (JVal.str now)) k =
        if dhasKey patch k then dget patch k else dget a k)
  ∧ (∀ apps : List Rec, (∀ b ∈ apps, dget b "id" ≠ some (JVal.str app_id)) →
      update_app apps app_id patch now = (none, apps)) := by
  refine ⟨update_app_first_match pre a post app_id patch now hpre ha,
    dget_dset_self _ _ _, ?_, fun apps h => update_app_no_match apps app_id patch now h⟩
  intro k hk
  rw [dget_dset_ne _ _ _ _ hk]
  by_cases hp : dhasKey patch k
  · rw [if_pos hp, dget_dmerge_of_has a patch k hnd hp]
  · have hp' : dhasKey patch k = false := by simpa using hp
    rw [if_neg hp, dget_dmerge_of_not_has a patch k hp']

/-- Witness for claim C7, at a one-record collection and the patch that
renames field n. -/
theorem update_app_correct_witness :
    (∀ b ∈ ([] : List Rec), dget b "id" ≠ some (JVal.str "a"))
  ∧ dget [("id", JVal.str "a"), ("n", JVal.str "f")] "id" = some (JVal.str "a")
  ∧ ((([("n", JVal.str "b")] : Rec).map Prod.fst).Nodup)
  ∧ ((update_app ([] ++ [("id", JVal.str "a"), ("n", JVal.str "f")] :: []) "a"
        [("n", JVal.str "b")] "u" =
       (some (dset (dmerge [("id", JVal.str "a"), ("n", JVal.str "f")]
           [("n", JVal.str "b")]) "updated_at" (JVal.str "u")),
        [] ++ dset (dmerge [("id", JVal.str "a"), ("n", JVal.str "f")]
           [("n", JVal.str "b")]) "updated_at" (JVal.str "u") :: []))
    ∧ dget (dset (dmerge [("id", JVal.str "a"), ("n", JVal.str "f")]
        [("n", JVal.str "b")]) "updated_at" (JVal.str "u")) "updated_at"
        = some (JVal.str "u")
    ∧ (∀ k, k ≠ "updated_at" →
        dget (dset (dmerge [("id", JVal.str "a"), ("n", JVal.str "f")]
          [("n", JVal.str "b")]) "updated_at" (JVal.str "u")) k =
          if dhasKey [("n", JVal.str "b")] k then dget [("n", JVal.str "b")] k
          else dget [("id", JVal.str "a"), ("n", JVal.str "f")] k)
    ∧ (∀ apps : List Rec, (∀ b ∈ apps, dget b "id" ≠ some (JVal.str "a")) →
        update_app apps "a" [("n", JVal.str "b")] "u" = (none, apps))) :=
  ⟨by simp, by decide, by decide,
   update_app_correct [] [("id", JVal.str "a"), ("n", JVal.str "f")] [] "a"
     [("n", JVal.str "b")] "u" (by simp) (by decide) (by decide)⟩

/-- Claim C4 counterexample: updating record a with a patch that itself
contains a created_at key overwrites the stored created_at (the shallow
merge lets patch keys win), so created_at is not immutable under
updateApp with an arbitrary patch: it changes from t0 to t9 here. -/
theorem created_at_overwritten :
    dget ((update_app [[("id", JVal.str "a"), ("created_at", JVal.str "t0")]] "a"
        [("created_at", JVal.str "t9")] "u1").1.getD []) "created_at"
      = some (JVal.str "t9")
  ∧ dget ((update_app [[("id", JVal.str "a"), ("created_at", JVal.str "t0")]] "a"
        [("created_at", JVal.str "t9")] "u1").1.getD []) "created_at"
      ≠ some (JVal.str "t0") := by decide

/-- Claim C4 amended: created_at is injected into the record at creation
by add_app, and update_app preserves the stored created_at of the updated
record for every patch that does not itself contain a created_at key. -/
theorem created_at_set_once (apps : List Rec) (new_app : Rec) (now : String)
    (pre : List Rec) (a : Rec) (post : List Rec) (app_id : String) (patch : Rec)
    (t : String)
    (hpre : ∀ b ∈ pre, dget b "id" ≠ some (JVal.str app_id))
    (ha : dget a "id" = some (JVal.str app_id))
    (hc : dhasKey patch "created_at" = false) :
    dget (add_app apps new_app now).1 "created_at" = some (JVal.str now)
  ∧ (update_app (pre ++ a :: post) app_id patch t).1 =
      some (dset (dmerge a patch) "updated_at" (JVal.str t))
  ∧ dget (dset (dmerge a patch) "updated_at" (JVal.str t)) "created_at"
      = dget a "created_at" := by
  refine ⟨dget_dset_self _ _ _, ?_, ?_⟩
  · rw [update_app_first_match pre a post app_id patch t hpre ha]
  · rw [dget_dset_ne _ _ _ _ (by decide), dget_dmerge_of_not_has a patch _ hc]

/-- Witness for the amended claim C4, at a one-record collection and the
patch that only renames field n. -/
theorem created_at_set_once_witness :
    (∀ b ∈ ([] : List Rec), dget b "id" ≠ some (JVal.str "a"))
  ∧ dget [("id", JVal.str "a"), ("created_at", JVal.str "t0")] "id" = some (JVal.str "a")
  ∧ dhasKey ([("n", JVal.str "b")] : Rec) "created_at" = false
  ∧ (dget (add_app [] [("id", JVal.str "a")] "c0").1 "created_at" = some (JVal.str "c0")
    ∧ (update_app ([] ++ [("id", JVal.str "a"), ("created_at", JVal.str "t0")] :: []) "a"
         [("n", JVal.str "b")] "u").1 =
        some (dset (dmerge [("id", JVal.str "a"), ("created_at", JVal.str "t0")]
           [("n", JVal.str "b")]) "updated_at" (JVal.str "u"))
    ∧ dget (dset (dmerge [("id", JVal.str "a"), ("created_at", JVal.str "t0")]
        [("n", JVal.str "b")]) "updated_at" (JVal.str "u")) "created_at"
        = dget [("id", JVal.str "a"), ("created_at", JVal.str "t0")] "created_at") :=
  ⟨by simp, by decide, by decide,
   created_at_set_once [] [("id", JVal.str "a")] "c0" []
     [("id", JVal.str "a"), ("created_at", JVal.str "t0")] [] "a"
     [("n", JVal.str "b")] "u" (by simp) (by decide) (by decide)⟩

/-- Claim C9: delete_app removes every record whose id field matches and
is idempotent: a second call yields the same final collection, still
responds success, and afterwards no matching record remains. -/
theorem delete_app_idempotent (apps : List Rec) (app_id : String) :
    delete_app (delete_app apps app_id).2 app_id = delete_app apps app_id
  ∧ (delete_app (delete_app apps app_id).2 app_id).1 = true
  ∧ ∀ a ∈ (delete_app apps app_id).2, dget a "id" ≠ some (JVal.str app_id) := by
  refine ⟨?_, rfl, ?_⟩
  · simp only [delete_app]
    rw [List.filter_eq_self.mpr (fun b hb => (List.mem_filter.mp hb).2)]
  · intro a ha
    simp only [delete_app] at ha
    simpa using (List.mem_filter.mp ha).2

/-- Claim C5: the legacy user-data endpoint is a tolerant read.  A
missing email and an empty email answer the empty shape, an unknown user
answers the empty shape, and a known user answers the stored record; the
function is total, so no branch produces an error. -/
theorem user_data_tolerant (users : Users) (e : String) (u : Rec) :
    user_data users none = emptyUserData
  ∧ user_data users (some "") = emptyUserData
  ∧ (e ≠ "" → dget users e = none → user_data users (some e) = emptyUserData)
  ∧ (e ≠ "" → dget users e = some u → user_data users (some e) = u) := by
  refine ⟨rfl, rfl, fun he hn => ?_, fun he hs => ?_⟩
  · simp [user_data, he, hn]
  · simp [user_data, he, hs]

/-- Witness for claim C5, at an unknown email over an empty users
document. -/
theorem user_data_tolerant_witness :
    ("u" ≠ "") ∧ dget ([] : Users) "u" = none
  ∧ user_data [] (some "u") = emptyUserData :=
  ⟨by decide, rfl, (user_data_tolerant [] "u" []).2.2.1 (by decide) rfl⟩

/-- Claim C6: update_user_data replaces the record stored under the email
wholesale by a record holding exactly the given apps and robots (fields
previously stored there, such as password, are dropped rather than
merged) and leaves the records of all other keys unchanged. -/
theorem update_user_data_replaces (users : Users) (e : String) (apps robots : JVal)
    (he : e ≠ "") :
    update_user_data users e apps robots =
      some (dset users e [("apps", apps), ("robots", robots)])
  ∧ dget (dset users e [("apps", apps), ("robots", robots)]) e =
      some [("apps", apps), ("robots", robots)]
  ∧ ∀ e', e' ≠ e →
      dget (dset users e [("apps", apps), ("robots", robots)]) e' = dget users e' := by
  exact ⟨by simp [update_user_data, he], dget_dset_self _ _ _,
    fun e' h => dget_dset_ne _ _ _ _ h⟩

/-- Witness for claim C6, at a user that previously stored a password and
a created_at, next to an unrelated user. -/
theorem update_user_data_replaces_witness :
    ("u" ≠ "")
  ∧ (update_user_data
       [("u", [("password", JVal.str "p"), ("created_at", JVal.str "t")]),
        ("v", [("apps", JVal.arr JArr.nil)])]
       "u" (JVal.arr (JArr.cons (JVal.str "a1") JArr.nil)) (JVal.arr JArr.nil) =
      some (dset
        [("u", [("password", JVal.str "p"), ("created_at", JVal.str "t")]),
         ("v", [("apps", JVal.arr JArr.nil)])]
        "u" [("apps", JVal.arr (JArr.cons (JVal.str "a1") JArr.nil)),
             ("robots", JVal.arr JArr.nil)])
    ∧ dget (dset
        [("u", [("password", JVal.str "p"), ("created_at", JVal.str "t")]),
         ("v", [("apps", JVal.arr JArr.nil)])]
        "u" [("apps", JVal.arr (JArr.cons (JVal.str "a1") JArr.nil)),
             ("robots", JVal.arr JArr.nil)]) "u" =
      some [("apps", JVal.arr (JArr.cons (JVal.str "a1") JArr.nil)),
            ("robots", JVal.arr JArr.nil)]
    ∧ ∀ e', e' ≠ "u" →
        dget (dset
          [("u", [("password", JVal.str "p"), ("created_at", JVal.str "t")]),
           ("v", [("apps", JVal.arr JArr.nil)])]
          "u" [("apps", JVal.arr (JArr.cons (JVal.str "a1") JArr.nil)),
               ("robots", JVal.arr JArr.nil)]) e' =
        dget [("u", [("password", JVal.str "p"), ("created_at", JVal.str "t")]),
              ("v", [("apps", JVal.arr JArr.nil)])] e') :=
  ⟨by decide,
   update_user_data_replaces
     [("u", [("password", JVal.str "p"), ("created_at", JVal.str "t")]),
      ("v", [("apps", JVal.arr JArr.nil)])]
     "u" (JVal.arr (JArr.cons (JVal.str "a1") JArr.nil)) (JVal.arr JArr.nil)
     (by decide)⟩

/-- Claim C8: for a known user whose stored password is present and
truthy, login answers the 401 branch exactly when the supplied password
differs and succeeds when it matches; for an unknown email it creates and
stores a fresh user with empty apps and robots and the given password
(null when the given password is falsy). -/
theorem login_correct (users : Users) (e : String) (password : JVal) (now : String)
    (hne : e ≠ "") :
    (∀ user stored, dget users e = some user →
        dget user "password" = some stored → truthy stored = true →
        stored ≠ password →
        login users (some e) password now = (LoginResult.authError, users))
  ∧ (∀ user stored, dget users e = some user →
        dget user "password" = some stored → truthy stored = true →
        stored = password →
        login users (some e) password now =
          (LoginResult.ok e ((dget user "apps").getD (JVal.arr JArr.nil))
             ((dget user "robots").getD (JVal.arr JArr.nil)), users))
  ∧ (dget users e = none →
        login users (some e) password now =
          (LoginResult.ok e (JVal.arr JArr.nil) (JVal.arr JArr.nil),
           dset users e
             [("apps", JVal.arr JArr.nil), ("robots", JVal.arr JArr.nil),
              ("password", if truthy password then password else JVal.null),
              ("created_at", JVal.str now)])) := by
  refine ⟨?_, ?_, ?_⟩
  · intro user stored hu hp ht hmm
    have hk := dhasKey_eq_true_of_dget user "password" stored hp
    simp [login, hne, hu, hk, hp, ht, hmm]
  · intro user stored hu hp ht heq
    have hk := dhasKey_eq_true_of_dget user "password" stored hp
    simp [login, hne, hu, hk, hp, ht, heq]
  · intro hn
    simp [login, hne, hn]

/-- Witness for claim C8, at a user that stores the password pw and a
request supplying the wrong password xx. -/
theorem login_correct_witness :
    ("u" ≠ "")
  ∧ dget [("u", [("password", JVal.str "pw")])] "u" = some [("password", JVal.str "pw")]
  ∧ dget [("password", JVal.str "pw")] "password" = some (JVal.str "pw")
  ∧ truthy (JVal.str "pw") = true
  ∧ JVal.str "pw" ≠ JVal.str "xx"
  ∧ login [("u", [("password", JVal.str "pw")])] (some "u") (JVal.str "xx") "t" =
      (LoginResult.authError, [("u", [("password", JVal.str "pw")])]) :=
  ⟨by decide, by decide, by decide, by decide, by decide,
   (login_correct [("u", [("password", JVal.str "pw")])] "u" (JVal.str "xx") "t"
       (by decide)).1
     [("password", JVal.str "pw")] (JVal.str "pw") (by decide) (by decide)
     (by decide) (by decide)⟩

/-- Claim C10: for a known user whose stored password field is absent,
null or the empty string, login succeeds for every supplied password,
answers the user's apps and robots, and the users document is unchanged
(that branch never saves). -/
theorem login_no_stored_password (users : Users) (e : String) (password : JVal)
    (now : String) (user : Rec)
    (hne : e ≠ "") (hu : dget users e = some user)
    (hp : dget user "password" = none ∨ dget user "password" = some JVal.null ∨
          dget user "password" = some (JVal.str "")) :
    login users (some e) password now =
      (LoginResult.ok e ((dget user "apps").getD (JVal.arr JArr.nil))
         ((dget user "robots").getD (JVal.arr JArr.nil)), users) := by
  have hcond : (dhasKey user "password"
      && truthy ((dget user "password").getD JVal.null)) = false := by
    rcases hp with h | h | h
    · have hfalse := (dget_eq_none_iff user "password").mp h
      simp [hfalse]
    · simp [h, truthy]
    · simp [h, truthy]
  simp [login, hne, hu, hcond]

/-- Witness for claim C10, at a user whose stored password is null and an
arbitrary supplied password. -/
theorem login_no_stored_password_witness :
    ("u" ≠ "")
  ∧ dget [("u", [("password", JVal.null), ("apps", JVal.arr (JArr.cons (JVal.str "a1") JArr.nil))])] "u"
      = some [("password", JVal.null), ("apps", JVal.arr (JArr.cons (JVal.str "a1") JArr.nil))]
  ∧ dget [("password", JVal.null), ("apps", JVal.arr (JArr.cons (JVal.str "a1") JArr.nil))] "password"
      = some JVal.null
  ∧ login [("u", [("password", JVal.null), ("apps", JVal.arr (JArr.cons (JVal.str "a1") JArr.nil))])]
      (some "u") (JVal.str "anything") "t" =
      (LoginResult.ok "u" (JVal.arr (JArr.cons (JVal.str "a1") JArr.nil)) (JVal.arr JArr.nil),
       [("u", [("password", JVal.null), ("apps", JVal.arr (JArr.cons (JVal.str "a1") JArr.nil))])]) :=
  ⟨by decide, by decide, by decide, by
    have := login_no_stored_password
      [("u", [("password", JVal.null), ("apps", JVal.arr (JArr.cons (JVal.str "a1") JArr.nil))])]
      "u" (JVal.str "anything") "t"
      [("password", JVal.null), ("apps", JVal.arr (JArr.cons (JVal.str "a1") JArr.nil))]
      (by decide) (by decide) (Or.inr (Or.inl (by decide)))
    simpa using this⟩

/-- Claim C1 demonstration: update_app performs an unsynchronized
load-modify-save (no lock exists anywhere in the source).  Under the
interleaving in which both handlers load before either saves, the final
persisted collection differs from applying the two patches sequentially
in either of the two possible total orders, and the field written by
request 0 was lost. -/
theorem update_app_lost_update :
    raceFinal ≠ seqFinal01
  ∧ raceFinal ≠ seqFinal10
  ∧ dget (raceFinal.headD []) "x" = none
  ∧ dget (seqFinal01.headD []) "x" = some (JVal.str "1")
  ∧ dget (seqFinal10.headD []) "x" = some (JVal.str "1") := by decide

/-- Claim C2 demonstration: save_json opens the file in truncating write
mode with no write-to-temp-then-rename discipline, so a write that fails
partway leaves only a prefix of the new serialization on disk: the prior
content (here the document text of one record, stood for by its opening
bracket context) is destroyed, and the function merely returns False
rather than reporting a store error.  A successful save does replace the
content. -/
theorem save_json_destroys_prior_on_failure :
    (save_json "[1,2]" (some 1)).1 = false
  ∧ (save_json "[1,2]" (some 1)).2 = "["
  ∧ (save_json "[1,2]" (some 1)).2 ≠ "[9]"
  ∧ ∀ s : String, save_json s none = (true, s) := by
  refine ⟨rfl, by decide, by decide, fun s => rfl⟩

/-- Claim C3 demonstration: when the stored file is present but its text
does not parse, load_json swallows the parse error in its except branch
and returns the caller-supplied default, exactly as if the file were
absent; no error of any kind reaches the caller. -/
theorem load_json_swallows_corruption {D : Type} (parse : String → Option D)
    (s : String) (default : D) (h : parse s = none) :
    load_json parse (some s) default = default := by
  simp [load_json, h]

/-- Witness for the claim C3 demonstration, at a parser that rejects the
stored text and the empty apps collection as default. -/
theorem load_json_swallows_corruption_witness :
    (fun _ : String => (none : Option (List Rec))) "not json" = none
  ∧ load_json (fun _ : String => (none : Option (List Rec))) (some "not json") [] = [] :=
  ⟨rfl, load_json_swallows_corruption (fun _ : String => (none : Option (List Rec)))
    "not json" [] rfl⟩

end AppStore
